import Mathlib

/-!
Verification of the enrich-exporter repository: a shallow embedding of its
two HTTP handlers (the report-to-PDF pipeline and the hello endpoint),
its path resolver, its HTML escaping helpers and its HTML renderer,
together with theorems settling the specification claims.
-/

set_option maxRecDepth 10000

/-- A JavaScript value as it can occur in the dynamically-typed report
document: a string, a number (the report fields in play are integral in the
claims, so `Int` suffices), a boolean, `null` or `undefined`. -/
inductive JSVal where
  | str (s : String)
  | num (n : Int)
  | boolean (b : Bool)
  | null
  | undefined
deriving DecidableEq

/-- JavaScript truthiness of a value: empty string, 0, false, null and
undefined are falsy. -/
def truthy : JSVal → Bool
  | .str s => s != ""
  | .num n => n != 0
  | .boolean b => b
  | .null => false
  | .undefined => false

/-- JavaScript String() conversion of a value. -/
def jsToString : JSVal → String
  | .str s => s
  | .num n => toString n
  | .boolean b => if b then ("true") else ("false")
  | .null => "null"
  | .undefined => "undefined"

/-- The JavaScript short-circuit `v || d`: keeps v when truthy, else d. -/
def jsOr (v d : JSVal) : JSVal := if truthy v then v else d

/-- Embedding of the body of the replacement function of the global
regex replace over the five special HTML characters (ampersand, less
than, greater than, double quote, single quote) applied to one character:
each maps to its entity, any other character is kept. -/
def escapeChar (c : Char) : List Char :=
  if c = '&' then ("&amp;").data
  else if c = '<' then ("&lt;").data
  else if c = '>' then ("&gt;").data
  else if c = '"' then ("&quot;").data
  else if c = '\'' then ("&#39;").data
  else [c]

/-- The global regex replace of the five special HTML characters over a
character list. -/
def escapeList (l : List Char) : List Char := (l.map escapeChar).flatten

/-- Embedding of the source helper escapeHtml: String coercion of the
value (falsy values becoming the empty string) followed by the global
entity replacement. -/
def escapeHtml (v : JSVal) : String :=
  String.mk (escapeList ((jsToString (jsOr v (.str ""))).data))

/-- The global regex replace `/"/g` by "%22" over a character list. -/
def replQuote (l : List Char) : List Char :=
  (l.map (fun c => if c = '"' then ("%22").data else [c])).flatten

/-- Embedding of the source helper escapeAttr: escapeHtml followed by
the global replacement of double quotes with "%22". -/
def escapeAttr (v : JSVal) : String :=
  String.mk (replQuote ((escapeHtml v).data))

/-- Strips an expected prefix from a character list, returning the
remainder when the prefix is present. -/
def stripPfx : List Char → List Char → Option (List Char)
  | [], l => some l
  | _ :: _, [] => none
  | a :: as, c :: cs => if a = c then stripPfx as cs else none

/-- The entity tails that may legally follow an ampersand in escaped
output. -/
def entityTails : List (List Char) :=
  [("amp;").data, ("lt;").data, ("gt;").data, ("quot;").data, ("#39;").data]

/-- Every ampersand in the list starts one of the five entities produced
by escaping. -/
def ampOk : List Char → Bool
  | [] => true
  | c :: rest =>
      (if c = '&' then entityTails.any (fun e => (stripPfx e rest).isSome) else true)
      && ampOk rest

/-- A character which may appear verbatim in escaped HTML output. -/
def htmlSafe (c : Char) : Bool :=
  c != '<' && c != '>' && c != '"' && c != '\''

/-- A string is well-escaped when it contains none of the four directly
dangerous characters and every ampersand begins an entity. -/
def wellEscaped (s : String) : Bool :=
  s.data.all htmlSafe && ampOk s.data

/-- Splits a reversed character list at its first slash (the last slash
of the forward list): embeds one nonempty slash-free capture group of the
path regex, read from the right. -/
def segTo : List Char → Option (List Char × List Char)
  | [] => none
  | c :: cs =>
      if c = '/' then some ([], cs)
      else
        match segTo cs with
        | some (s, r) => some (c :: s, r)
        | none => none

/-- Authority-and-path split of the part of a URL after its scheme:
the authority runs to the first slash, question mark or hash and must be
nonempty; the pathname runs from there to the first question mark or
hash, defaulting to a single slash. -/
def hostPath (r : List Char) : Option (List Char) :=
  let host := r.takeWhile (fun c => c != '/' && c != '?' && c != '#')
  if host = [] then none
  else
    let path := (r.drop host.length).takeWhile (fun c => c != '?' && c != '#')
    if path = [] then some ['/'] else some path

/-- Models the WHATWG URL constructor `new URL(s)` for the fragment of
behavior this repository exercises (http/https URLs): strings without an
http(s) scheme or without an authority make the constructor throw, which
is represented by `none`; otherwise the pathname is returned. -/
def pathnameOfL (l : List Char) : Option (List Char) :=
  match stripPfx (("https://").data) l with
  | some r => hostPath r
  | none =>
      match stripPfx (("http://").data) l with
      | some r => hostPath r
      | none => none

/-- `new URL(s).pathname` at string level. -/
def pathnameOf (s : String) : Option String :=
  (pathnameOfL s.data).map String.mk

/-- Embedding of the regex match
`u.pathname.match(/\/enrich-reports\/([^\/]+)\/([^\/]+)\/report\.json$/)`:
read the reversed pathname, peel "/report.json", one nonempty slash-free
segment for the report id, one for the business id, then the literal
"/enrich-reports" (whose leading slash enforces the separator before the
bucket segment). Returns the (bizId, reportId) capture groups. -/
def matchReportPathL (p : List Char) : Option (String × String) :=
  (stripPfx (("/report.json").data.reverse) p.reverse).bind fun l1 =>
  (segTo l1).bind fun pr1 =>
  if pr1.1 = [] then none else
  (segTo pr1.2).bind fun pr2 =>
  if pr2.1 = [] then none else
  (stripPfx (("/enrich-reports").data.reverse) pr2.2).map fun _ =>
  (String.mk pr2.1.reverse, String.mk pr1.1.reverse)

/-- Embedding of the source helper `parseReportPath`: the try/catch around
`new URL` maps a throwing constructor to `(null, null)`, a failed regex
match likewise, and a successful match yields the two capture groups
(`m?.[1] ?? null`, `m?.[2] ?? null`). -/
def parseReportPath (jsonUrl : String) : Option String × Option String :=
  match pathnameOf jsonUrl with
  | none => (none, none)
  | some p =>
      match matchReportPathL p.data with
      | some (b, r) => (some b, some r)
      | none => (none, none)

/-- The `header` object of the report document; absent fields are
`undefined`. -/
structure ReportHeader where
  business_name : JSVal
  location_city : JSVal
  location_country : JSVal
  website_url : JSVal
  contact_email : JSVal
deriving DecidableEq

/-- The `sections.overview` object. -/
structure OverviewSec where
  growth_transparency_badge : JSVal
  ai_summary : JSVal
  goals : JSVal
  certifications : JSVal
deriving DecidableEq

/-- A section with a single `information` field (`operations`,
`local_impact`, `people_partnerships`). -/
structure InfoSec where
  information : JSVal
deriving DecidableEq

/-- The `sections.standards` object. -/
structure StandardsSec where
  global_unwto : JSVal
  national_ctc : JSVal
deriving DecidableEq

/-- The `sections.insights` object. -/
structure InsightsSec where
  local_suppliers : JSVal
  employee : JSVal
  economic : JSVal
deriving DecidableEq

/-- The `sections.recommendations` object. -/
structure RecsSec where
  goals : JSVal
  operations : JSVal
deriving DecidableEq

/-- The `sections` object; each sub-object may be absent. -/
structure ReportSections where
  overview : Option OverviewSec
  operations : Option InfoSec
  standards : Option StandardsSec
  local_impact : Option InfoSec
  people_partnerships : Option InfoSec
  insights : Option InsightsSec
  recommendations : Option RecsSec
deriving DecidableEq

/-- The parsed report document consumed by `renderHTML`. -/
structure ReportDoc where
  header : Option ReportHeader
  sections : Option ReportSections
deriving DecidableEq

def emptyHeader : ReportHeader := ⟨.undefined, .undefined, .undefined, .undefined, .undefined⟩

def emptyOverview : OverviewSec := ⟨.undefined, .undefined, .undefined, .undefined⟩

def emptyInfo : InfoSec := ⟨.undefined⟩

def emptyStandards : StandardsSec := ⟨.undefined, .undefined⟩

def emptyInsights : InsightsSec := ⟨.undefined, .undefined, .undefined⟩

def emptyRecs : RecsSec := ⟨.undefined, .undefined⟩

def emptySections : ReportSections := ⟨none, none, none, none, none, none, none⟩

/-- The entirely empty report document `{}`. -/
def emptyDoc : ReportDoc := ⟨none, none⟩

/-- JavaScript optional chaining `o?.f`: `undefined` when the object is
absent. -/
def jget {α : Type} (o : Option α) (f : α → JSVal) : JSVal :=
  match o with
  | some x => f x
  | none => .undefined

/-- Embedding of `renderHTML`: the fixed template literal of the source
with every interpolation spelled out. Literal braces of the CSS are
written with \x7b and \x7d escapes. -/
def renderHTML (content : ReportDoc) : String :=
  let h := content.header.getD emptyHeader
  let s := content.sections.getD emptySections
  let badge := jsOr (jget s.overview (fun o => o.growth_transparency_badge)) (.str "Initiated")
  "\n<!doctype html>\n<html>\n<head>\n<meta charset=\"utf-8\"/>\n<title>"
  ++ escapeHtml (jsOr h.business_name (.str "Business Overview"))
  ++ "</title>\n<style>\n  body \x7b font-family: Inter, system-ui, -apple-system, Segoe UI, Roboto, Arial, sans-serif; color: #111; padding: 16px; \x7d\n  .header \x7b display:flex; justify-content:space-between; align-items:flex-start; border-bottom:1px solid #e5e7eb; padding:16px 0; \x7d\n  .h-title \x7b font-size:20px; font-weight:700; \x7d\n  .h-meta \x7b color:#555; font-size:12px; \x7d\n  .section \x7b padding:12px 0; \x7d\n  .k \x7b font-weight:600; margin-bottom:4px; \x7d\n  .pill \x7b display:inline-block; padding:4px 8px; border-radius:999px; font-size:12px; background:#f3f4f6; \x7d\n  .grid-2 \x7b display:grid; grid-template-columns: 1fr 1fr; gap:16px; \x7d\n  @media print \x7b [data-no-print=\"true\"]\x7b display:none !important; \x7d \x7d\n</style>\n</head>\n<body>\n  <div class=\"header\">\n    <div>\n      <div class=\"h-title\">"
  ++ escapeHtml (jsOr h.business_name (.str "Business"))
  ++ "</div>\n      <div class=\"h-meta\">\n        "
  ++ (if truthy h.location_city then escapeHtml h.location_city else "")
  ++ (if truthy h.location_city && truthy h.location_country then ", " else "")
  ++ (if truthy h.location_country then escapeHtml h.location_country else "")
  ++ "\n        "
  ++ (if truthy h.website_url then
        " • <a href=\"" ++ escapeAttr h.website_url ++ "\">"
          ++ escapeHtml h.website_url ++ "</a>"
      else "")
  ++ "\n        "
  ++ (if truthy h.contact_email then " • " ++ escapeHtml h.contact_email else "")
  ++ "\n      </div>\n    </div>\n    <div><span class=\"pill\">"
  ++ escapeHtml badge
  ++ "</span></div>\n  </div>\n\n  <div class=\"section\">\n    <div class=\"k\">Executive Summary</div>\n    <div>"
  ++ escapeHtml (jsOr (jget s.overview (fun o => o.ai_summary)) (.str ""))
  ++ "</div>\n  </div>\n\n  <div class=\"grid-2\">\n    <div class=\"section\">\n      <div class=\"k\">Goals</div>\n      <div>"
  ++ escapeHtml (jsOr (jget s.overview (fun o => o.goals)) (.str ""))
  ++ "</div>\n    </div>\n    <div class=\"section\">\n      <div class=\"k\">Certifications</div>\n      <div>"
  ++ escapeHtml (jsOr (jget s.overview (fun o => o.certifications)) (.str ""))
  ++ "</div>\n    </div>\n  </div>\n\n  <div class=\"grid-2\">\n    <div class=\"section\">\n      <div class=\"k\">Operations</div>\n      <div>"
  ++ escapeHtml (jsOr (jget s.operations (fun o => o.information)) (.str ""))
  ++ "</div>\n    </div>\n    <div class=\"section\">\n      <div class=\"k\">Standards (UN / National)</div>\n      <div>"
  ++ escapeHtml (jsOr (jget s.standards (fun o => o.global_unwto)) (.str ""))
  ++ "</div>\n      <div>"
  ++ escapeHtml (jsOr (jget s.standards (fun o => o.national_ctc)) (.str ""))
  ++ "</div>\n    </div>\n  </div>\n\n  <div class=\"grid-2\">\n    <div class=\"section\">\n      <div class=\"k\">Local Impact</div>\n      <div>"
  ++ escapeHtml (jsOr (jget s.local_impact (fun o => o.information)) (.str ""))
  ++ "</div>\n    </div>\n    <div class=\"section\">\n      <div class=\"k\">People & Partnerships</div>\n      <div>"
  ++ escapeHtml (jsOr (jget s.people_partnerships (fun o => o.information)) (.str ""))
  ++ "</div>\n    </div>\n  </div>\n\n  <div class=\"grid-2\">\n    <div class=\"section\">\n      <div class=\"k\">Insight — Local Suppliers</div>\n      <div>"
  ++ escapeHtml (jsOr (jget s.insights (fun o => o.local_suppliers)) (.str ""))
  ++ "</div>\n    </div>\n    <div class=\"section\">\n      <div class=\"k\">Insight — Employee</div>\n      <div>"
  ++ escapeHtml (jsOr (jget s.insights (fun o => o.employee)) (.str ""))
  ++ "</div>\n    </div>\n  </div>\n\n  <div class=\"section\">\n    <div class=\"k\">Insight — Economic</div>\n    <div>"
  ++ escapeHtml (jsOr (jget s.insights (fun o => o.economic)) (.str ""))
  ++ "</div>\n  </div>\n\n  <div class=\"grid-2\">\n    <div class=\"section\">\n      <div class=\"k\">Recommendations — Goals</div>\n      <div>"
  ++ escapeHtml (jsOr (jget s.recommendations (fun o => o.goals)) (.str ""))
  ++ "</div>\n    </div>\n    <div class=\"section\">\n      <div class=\"k\">Recommendations — Operations</div>\n      <div>"
  ++ escapeHtml (jsOr (jget s.recommendations (fun o => o.operations)) (.str ""))
  ++ "</div>\n    </div>\n  </div>\n</body>\n</html>"

/-- Decidable substring occurrence test over character lists. -/
def containsSub (needle : List Char) : List Char → Bool
  | [] => (stripPfx needle []).isSome
  | c :: t => (stripPfx needle (c :: t)).isSome || containsSub needle t

/-- Names the 19 user-supplied text fields read by `renderHTML`. -/
inductive FieldId where
  | bizName
  | locCity
  | locCountry
  | webUrl
  | contactEmail
  | growthBadge
  | aiSummary
  | ovGoals
  | ovCerts
  | opsInfo
  | stdGlobal
  | stdNational
  | localInfo
  | peopleInfo
  | insSuppliers
  | insEmployee
  | insEconomic
  | recGoals
  | recOps
deriving DecidableEq

/-- Writes one field of the report document, materialising the enclosing
objects when absent (all their other fields undefined). -/
def setField (f : FieldId) (v : JSVal) (c : ReportDoc) : ReportDoc :=
  let h := c.header.getD emptyHeader
  let s := c.sections.getD emptySections
  let ov := s.overview.getD emptyOverview
  let st := s.standards.getD emptyStandards
  let ins := s.insights.getD emptyInsights
  let rec0 := s.recommendations.getD emptyRecs
  match f with
  | .bizName =>
      ⟨some ⟨v, h.location_city, h.location_country, h.website_url, h.contact_email⟩, c.sections⟩
  | .locCity =>
      ⟨some ⟨h.business_name, v, h.location_country, h.website_url, h.contact_email⟩, c.sections⟩
  | .locCountry =>
      ⟨some ⟨h.business_name, h.location_city, v, h.website_url, h.contact_email⟩, c.sections⟩
  | .webUrl =>
      ⟨some ⟨h.business_name, h.location_city, h.location_country, v, h.contact_email⟩, c.sections⟩
  | .contactEmail =>
      ⟨some ⟨h.business_name, h.location_city, h.location_country, h.website_url, v⟩, c.sections⟩
  | .growthBadge =>
      ⟨c.header, some ⟨some ⟨v, ov.ai_summary, ov.goals, ov.certifications⟩,
        s.operations, s.standards, s.local_impact, s.people_partnerships,
        s.insights, s.recommendations⟩⟩
  | .aiSummary =>
      ⟨c.header, some ⟨some ⟨ov.growth_transparency_badge, v, ov.goals, ov.certifications⟩,
        s.operations, s.standards, s.local_impact, s.people_partnerships,
        s.insights, s.recommendations⟩⟩
  | .ovGoals =>
      ⟨c.header, some ⟨some ⟨ov.growth_transparency_badge, ov.ai_summary, v, ov.certifications⟩,
        s.operations, s.standards, s.local_impact, s.people_partnerships,
        s.insights, s.recommendations⟩⟩
  | .ovCerts =>
      ⟨c.header, some ⟨some ⟨ov.growth_transparency_badge, ov.ai_summary, ov.goals, v⟩,
        s.operations, s.standards, s.local_impact, s.people_partnerships,
        s.insights, s.recommendations⟩⟩
  | .opsInfo =>
      ⟨c.header, some ⟨s.overview, some ⟨v⟩, s.standards, s.local_impact,
        s.people_partnerships, s.insights, s.recommendations⟩⟩
  | .stdGlobal =>
      ⟨c.header, some ⟨s.overview, s.operations, some ⟨v, st.national_ctc⟩,
        s.local_impact, s.people_partnerships, s.insights, s.recommendations⟩⟩
  | .stdNational =>
      ⟨c.header, some ⟨s.overview, s.operations, some ⟨st.global_unwto, v⟩,
        s.local_impact, s.people_partnerships, s.insights, s.recommendations⟩⟩
  | .localInfo =>
      ⟨c.header, some ⟨s.overview, s.operations, s.standards, some ⟨v⟩,
        s.people_partnerships, s.insights, s.recommendations⟩⟩
  | .peopleInfo =>
      ⟨c.header, some ⟨s.overview, s.operations, s.standards, s.local_impact,
        some ⟨v⟩, s.insights, s.recommendations⟩⟩
  | .insSuppliers =>
      ⟨c.header, some ⟨s.overview, s.operations, s.standards, s.local_impact,
        s.people_partnerships, some ⟨v, ins.employee, ins.economic⟩, s.recommendations⟩⟩
  | .insEmployee =>
      ⟨c.header, some ⟨s.overview, s.operations, s.standards, s.local_impact,
        s.people_partnerships, some ⟨ins.local_suppliers, v, ins.economic⟩, s.recommendations⟩⟩
  | .insEconomic =>
      ⟨c.header, some ⟨s.overview, s.operations, s.standards, s.local_impact,
        s.people_partnerships, some ⟨ins.local_suppliers, ins.employee, v⟩, s.recommendations⟩⟩
  | .recGoals =>
      ⟨c.header, some ⟨s.overview, s.operations, s.standards, s.local_impact,
        s.people_partnerships, s.insights, some ⟨v, rec0.operations⟩⟩⟩
  | .recOps =>
      ⟨c.header, some ⟨s.overview, s.operations, s.standards, s.local_impact,
        s.people_partnerships, s.insights, some ⟨rec0.goals, v⟩⟩⟩

/-- Body of an HTTP response of the pipeline handler: empty (204), a JSON
error object, or the JSON success object. -/
inductive RespBody where
  | empty
  | err (code : String)
  | okUrl (url : String)
deriving DecidableEq

/-- An HTTP response: status code and body. -/
structure Resp where
  status : Nat
  body : RespBody
deriving DecidableEq

/-- One call of `supabase.storage.from(bucket).upload(path, bytes, opts)`
as observed by the storage backend. -/
structure UploadReq where
  bucket : String
  path : String
  contentType : String
  upsert : Bool
  cacheControl : String
deriving DecidableEq

/-- Externally observable resource events of one request: whether the
puppeteer browser was launched, whether it was closed, and the upload
calls issued. -/
structure Trace where
  launched : Bool
  closed : Bool
  uploads : List UploadReq
deriving DecidableEq

def emptyTrace : Trace := ⟨false, false, []⟩

/-- Outcomes of the external collaborators for one request: each await
point of the handler either throws (with the message the catch block
stringifies) or succeeds with the recorded result. -/
structure Env where
  bucketName : String
  fetchExc : Option String
  fetchOk : Bool
  jsonExc : Option String
  content : ReportDoc
  launchExc : Option String
  newPageExc : Option String
  setContentExc : Option String
  pdfExc : Option String
  closeExc : Option String
  uploadExc : Option String
  uploadErr : Option String
  publicUrl : String → String

/-- The parsed request body `{json_url?, format?}`. -/
structure ReqBody where
  json_url : Option String
  format : Option String
deriving DecidableEq

/-- An incoming HTTP request: method and optional body. -/
structure Req where
  method : String
  body : Option ReqBody
deriving DecidableEq

/-- Embedding of the pipeline request handler of the exporter endpoint:
the linear control flow of the source with each `await` resolved by the
environment, the single try/catch mapped to the 500 branches, and the
browser/upload effects recorded in the trace. -/
def handler (env : Env) (req : Req) : Resp × Trace :=
  if req.method = "OPTIONS" then (⟨204, .empty⟩, emptyTrace)
  else if req.method ≠ "POST" then (⟨405, .err ("method_not_allowed")⟩, emptyTrace)
  else
    let b := req.body.getD ⟨none, none⟩
    let jsonUrl := b.json_url.getD ""
    if jsonUrl = "" then (⟨400, .err ("missing_json_url")⟩, emptyTrace)
    else
      let format := b.format.getD ("pdf")
      if format ≠ "pdf" then (⟨400, .err ("unsupported_format")⟩, emptyTrace)
      else
        match env.fetchExc with
        | some m => (⟨500, .err m⟩, emptyTrace)
        | none =>
          if !env.fetchOk then (⟨400, .err ("invalid_json_url")⟩, emptyTrace)
          else
            match env.jsonExc with
            | some m => (⟨500, .err m⟩, emptyTrace)
            | none =>
              let _html := renderHTML env.content
              match env.launchExc with
              | some m => (⟨500, .err m⟩, emptyTrace)
              | none =>
                match env.newPageExc with
                | some m => (⟨500, .err m⟩, ⟨true, false, []⟩)
                | none =>
                  match env.setContentExc with
                  | some m => (⟨500, .err m⟩, ⟨true, false, []⟩)
                  | none =>
                    match env.pdfExc with
                    | some m => (⟨500, .err m⟩, ⟨true, false, []⟩)
                    | none =>
                      match env.closeExc with
                      | some m => (⟨500, .err m⟩, ⟨true, false, []⟩)
                      | none =>
                        match parseReportPath jsonUrl with
                        | (some bizId, some reportId) =>
                          let pdfPath := bizId ++ "/" ++ reportId ++ "/report.pdf"
                          let upCall : UploadReq :=
                            ⟨env.bucketName, pdfPath, "application/pdf", true, "3600"⟩
                          match env.uploadExc with
                          | some m => (⟨500, .err m⟩, ⟨true, true, [upCall]⟩)
                          | none =>
                            match env.uploadErr with
                            | some m => (⟨500, .err m⟩, ⟨true, true, [upCall]⟩)
                            | none =>
                              (⟨200, .okUrl (env.publicUrl pdfPath)⟩, ⟨true, true, [upCall]⟩)
                        | _ => (⟨400, .err ("cannot_parse_report_path")⟩, ⟨true, true, []⟩)

/-- Response of the hello endpoint: status, Content-Type header and raw
body. -/
structure HelloResp where
  status : Nat
  contentType : String
  body : String
deriving DecidableEq

/-- Embedding of `api/hello.ts`: the request is ignored entirely. -/
def helloHandler (_req : Req) : HelloResp :=
  ⟨200, "application/json", "\x7b\"ok\":true,\"runtime\":\"node\"\x7d"⟩

/-- Environment in which every external step succeeds. -/
def envW : Env :=
  ⟨"enrich-reports", none, true, none, emptyDoc, none, none, none, none, none,
    none, none, fun p => "https://pub/" ++ p⟩

/-- Environment in which `page.pdf()` throws after the browser is up. -/
def envPdfFail : Env :=
  ⟨"enrich-reports", none, true, none, emptyDoc, none, none, none,
    some ("pdf_failed"), none, none, none, fun p => "https://pub/" ++ p⟩

def urlGood : String := "https://h/enrich-reports/biz/rep/report.json"

def reqPdf : Req := ⟨"POST", some ⟨some urlGood, some ("pdf")⟩⟩

def reqDocx : Req := ⟨"POST", some ⟨some ("https://h/x"), some ("docx")⟩⟩

def reqNoFmt : Req := ⟨"POST", some ⟨some ("https://h/x"), none⟩⟩

def reqBadPath : Req := ⟨"POST", some ⟨some ("https://h/nope"), some ("pdf")⟩⟩

/-- A document whose website URL is a lone double quote. -/
def quoteUrlDoc : ReportDoc := ⟨some ⟨.undefined, .undefined, .undefined, .str "\"", .undefined⟩, none⟩

def urlOtherBucket : String := "https://x.example/other-bucket/biz/rep/report.json"

lemma escapeList_nil : escapeList [] = [] := by simp [escapeList]

lemma escapeList_cons (c : Char) (t : List Char) :
    escapeList (c :: t) = escapeChar c ++ escapeList t := by
  simp [escapeList]

lemma replQuote_cons (c : Char) (t : List Char) :
    replQuote (c :: t) = (if c = '"' then ("%22").data else [c]) ++ replQuote t := by
  simp [replQuote]

lemma quote_not_mem_escapeChar (c : Char) : '"' ∉ escapeChar c := by
  unfold escapeChar
  split
  · decide
  · split
    · decide
    · split
      · decide
      · split
        · decide
        · split
          · decide
          · rename_i h1 h2 h3 h4 h5
            intro hmem
            simp only [List.mem_singleton] at hmem
            exact h4 hmem.symm

lemma quote_not_mem_escapeList (l : List Char) : '"' ∉ escapeList l := by
  induction l with
  | nil => simp [escapeList_nil]
  | cons c t ih =>
      rw [escapeList_cons]
      intro hmem
      rcases List.mem_append.mp hmem with h | h
      · exact quote_not_mem_escapeChar c h
      · exact ih h

lemma replQuote_id_of_no_quote (l : List Char) (h : '"' ∉ l) : replQuote l = l := by
  induction l with
  | nil => simp [replQuote]
  | cons c t ih =>
      rw [replQuote_cons]
      have hc : c ≠ '"' := by
        intro hc; exact h (by simp [hc])
      have ht : '"' ∉ t := fun hm => h (List.mem_cons_of_mem _ hm)
      simp [hc, ih ht]

/-- escapeAttr coincides with escapeHtml: the quote-to-%22 replacement
never fires because escapeHtml already removed every double quote. -/
lemma escapeAttr_eq_escapeHtml (v : JSVal) : escapeAttr v = escapeHtml v := by
  unfold escapeAttr
  rw [replQuote_id_of_no_quote _ (by simpa [escapeHtml] using quote_not_mem_escapeList _)]

lemma stripPfx_self_append (a t : List Char) : stripPfx a (a ++ t) = some t := by
  induction a with
  | nil => simp [stripPfx]
  | cons c cs ih => simp [stripPfx, ih]

lemma stripPfx_eq_some (a : List Char) :
    ∀ l t : List Char, stripPfx a l = some t → l = a ++ t := by
  induction a with
  | nil =>
      intro l t h
      simp [stripPfx] at h
      simp [h]
  | cons c cs ih =>
      intro l t h
      cases l with
      | nil => simp [stripPfx] at h
      | cons d ds =>
          unfold stripPfx at h
          split at h
          · rename_i hcd
            have := ih ds t h
            simp [hcd, this]
          · exact absurd h (by simp)

lemma ampOk_cons_ne (c : Char) (t : List Char) (h : c ≠ '&') :
    ampOk (c :: t) = ampOk t := by
  simp [ampOk, h]

lemma ampOk_append_of_no_amp (l t : List Char) (hl : '&' ∉ l)
    (h : ampOk t = true) : ampOk (l ++ t) = true := by
  induction l with
  | nil => simpa using h
  | cons c cs ih =>
      have hc : c ≠ '&' := fun hc => hl (by simp [hc])
      have hcs : '&' ∉ cs := fun hm => hl (List.mem_cons_of_mem _ hm)
      rw [List.cons_append, ampOk_cons_ne c _ hc]
      exact ih hcs

lemma ampOk_amp_entity (e t : List Char) (he : e ∈ entityTails)
    (h : ampOk (e ++ t) = true) : ampOk ('&' :: (e ++ t)) = true := by
  have hstrip : (stripPfx e (e ++ t)).isSome = true := by
    rw [stripPfx_self_append]; rfl
  have hany : entityTails.any (fun x => (stripPfx x (e ++ t)).isSome) = true :=
    List.any_eq_true.mpr ⟨e, he, hstrip⟩
  simp [ampOk, hany, h]

lemma ampOk_escapeChar_append (c : Char) (t : List Char) (h : ampOk t = true) :
    ampOk (escapeChar c ++ t) = true := by
  unfold escapeChar
  split
  · exact ampOk_amp_entity ("amp;").data t (by decide)
      (ampOk_append_of_no_amp _ t (by decide) h)
  · split
    · exact ampOk_amp_entity ("lt;").data t (by decide)
        (ampOk_append_of_no_amp _ t (by decide) h)
    · split
      · exact ampOk_amp_entity ("gt;").data t (by decide)
          (ampOk_append_of_no_amp _ t (by decide) h)
      · split
        · exact ampOk_amp_entity ("quot;").data t (by decide)
            (ampOk_append_of_no_amp _ t (by decide) h)
        · split
          · exact ampOk_amp_entity ("#39;").data t (by decide)
              (ampOk_append_of_no_amp _ t (by decide) h)
          · rename_i h1 h2 h3 h4 h5
            rw [List.singleton_append, ampOk_cons_ne c t h1]
            exact h

lemma htmlSafe_escapeChar (c : Char) : (escapeChar c).all htmlSafe = true := by
  unfold escapeChar
  split
  · decide
  · split
    · decide
    · split
      · decide
      · split
        · decide
        · split
          · decide
          · rename_i h1 h2 h3 h4 h5
            simp [List.all_cons, htmlSafe, h2, h3, h4, h5]

lemma escapeList_ampOk (l : List Char) : ampOk (escapeList l) = true := by
  induction l with
  | nil => simp [escapeList_nil, ampOk]
  | cons c t ih => rw [escapeList_cons]; exact ampOk_escapeChar_append c _ ih

lemma escapeList_htmlSafe (l : List Char) : (escapeList l).all htmlSafe = true := by
  induction l with
  | nil => simp [escapeList_nil]
  | cons c t ih =>
      rw [escapeList_cons, List.all_append]
      simp [htmlSafe_escapeChar c, ih]

lemma wellEscaped_escapeHtml (v : JSVal) : wellEscaped (escapeHtml v) = true := by
  unfold wellEscaped escapeHtml
  simp [escapeList_htmlSafe, escapeList_ampOk]

lemma segTo_append (s t : List Char) (hs : '/' ∉ s) :
    segTo (s ++ '/' :: t) = some (s, t) := by
  induction s with
  | nil => simp [segTo]
  | cons c cs ih =>
      have hc : c ≠ '/' := fun hc => hs (by simp [hc])
      have hcs : '/' ∉ cs := fun hm => hs (List.mem_cons_of_mem _ hm)
      rw [List.cons_append]
      unfold segTo
      rw [if_neg hc, ih hcs]

lemma segTo_eq_some :
    ∀ l s t : List Char, segTo l = some (s, t) → l = s ++ '/' :: t ∧ '/' ∉ s := by
  intro l
  induction l with
  | nil => intro s t h; simp [segTo] at h
  | cons c cs ih =>
      intro s t h
      unfold segTo at h
      split at h
      · rename_i hc
        simp only [Option.some.injEq, Prod.mk.injEq] at h
        subst hc
        refine ⟨?_, ?_⟩
        · simp [← h.1, ← h.2]
        · simp [← h.1]
      · rename_i hc
        revert h
        split
        · rename_i s0 r0 hrec
          intro h
          simp only [Option.some.injEq, Prod.mk.injEq] at h
          obtain ⟨hs, ht⟩ := h
          obtain ⟨hcs, hns⟩ := ih s0 r0 hrec
          subst ht
          refine ⟨?_, ?_⟩
          · simp [← hs, hcs]
          · rw [← hs]
            intro hmem
            rcases List.mem_cons.mp hmem with h1 | h1
            · exact hc h1.symm
            · exact hns h1
        · intro h
          exact absurd h (by simp)

lemma matchReportPathL_decomp (pre b r : List Char)
    (hb : b ≠ []) (hr : r ≠ []) (hbs : '/' ∉ b) (hrs : '/' ∉ r) :
    matchReportPathL
      (pre ++ ("/enrich-reports").data ++ '/' :: b ++ '/' :: r ++ ("/report.json").data)
      = some (String.mk b, String.mk r) := by
  have hrev :
      (pre ++ ("/enrich-reports").data ++ '/' :: b ++ '/' :: r
          ++ ("/report.json").data).reverse
        = ("/report.json").data.reverse ++
            (r.reverse ++ '/' :: (b.reverse ++ '/' ::
              ((("/enrich-reports").data.reverse) ++ pre.reverse))) := by
    simp [List.reverse_append, List.append_assoc]
  have hbrev : '/' ∉ b.reverse := by simpa using hbs
  have hrrev : '/' ∉ r.reverse := by simpa using hrs
  have hbne : b.reverse ≠ [] := by simpa using hb
  have hrne : r.reverse ≠ [] := by simpa using hr
  unfold matchReportPathL
  rw [hrev, stripPfx_self_append, Option.some_bind,
    segTo_append _ _ hrrev, Option.some_bind]
  simp only [if_neg hrne]
  rw [segTo_append _ _ hbrev, Option.some_bind]
  simp only [if_neg hbne]
  rw [stripPfx_self_append]
  simp [List.reverse_reverse]

lemma matchReportPathL_eq_some (p : List Char) (b r : String)
    (h : matchReportPathL p = some (b, r)) :
    ∃ pre, p = pre ++ ("/enrich-reports").data ++ '/' :: b.data ++ '/' :: r.data
        ++ ("/report.json").data
      ∧ b.data ≠ [] ∧ r.data ≠ [] ∧ '/' ∉ b.data ∧ '/' ∉ r.data := by
  unfold matchReportPathL at h
  rw [Option.bind_eq_some] at h
  obtain ⟨l1, h1, h⟩ := h
  rw [Option.bind_eq_some] at h
  obtain ⟨pr1, h2, h⟩ := h
  split at h
  · exact absurd h (by simp)
  · rename_i hrne
    rw [Option.bind_eq_some] at h
    obtain ⟨pr2, h3, h⟩ := h
    split at h
    · exact absurd h (by simp)
    · rename_i hbne
      rw [Option.map_eq_some'] at h
      obtain ⟨rest, h4, h5⟩ := h
      obtain ⟨hb, hr⟩ : String.mk pr2.1.reverse = b ∧ String.mk pr1.1.reverse = r := by
        simpa [Prod.ext_iff] using h5
      have e1 : p.reverse = ("/report.json").data.reverse ++ l1 := stripPfx_eq_some _ _ _ h1
      have e2 : l1 = pr1.1 ++ '/' :: pr1.2 ∧ '/' ∉ pr1.1 := segTo_eq_some _ _ _ (by
        rw [← h2])
      have e3 : pr1.2 = pr2.1 ++ '/' :: pr2.2 ∧ '/' ∉ pr2.1 := segTo_eq_some _ _ _ (by
        rw [← h3])
      have e4 : pr2.2 = ("/enrich-reports").data.reverse ++ rest := stripPfx_eq_some _ _ _ h4
      refine ⟨rest.reverse, ?_, ?_, ?_, ?_, ?_⟩
      · have : p = p.reverse.reverse := (List.reverse_reverse p).symm
        rw [this, e1, e2.1, e3.1, e4]
        subst hb hr
        simp [List.reverse_append, List.append_assoc]
      · subst hb; simpa using hbne
      · subst hr; simpa using hrne
      · subst hb; simpa using e3.2
      · subst hr; simpa using e2.2

lemma jsOr_falsy (v d : JSVal) (h : truthy v = false) : jsOr v d = d := by
  simp [jsOr, h]

lemma truthy_undef : truthy .undefined = false := rfl

/-- A falsy present field renders exactly like an absent one: every
interpolation of the template goes through `||` or a truthiness test. -/
lemma renderHTML_falsy_eq_undef (f : FieldId) (v : JSVal) (c : ReportDoc)
    (h : truthy v = false) :
    renderHTML (setField f v c) = renderHTML (setField f .undefined c) := by
  cases f <;>
    simp [renderHTML, setField, jget, jsOr, h, truthy_undef]

lemma mk_data (s : String) : String.mk s.data = s := by cases s; rfl

lemma str_ne_empty_iff (s : String) : s ≠ "" ↔ s.data ≠ [] := by
  constructor
  · intro h h2
    apply h
    cases s
    simp at h2
    rw [h2]
  · intro h h2
    apply h
    rw [h2]

lemma data_of_pattern (pre b r : String) :
    (pre ++ "/enrich-reports/" ++ b ++ "/" ++ r ++ "/report.json").data
      = pre.data ++ ("/enrich-reports").data ++ '/' :: b.data ++ '/' :: r.data
          ++ ("/report.json").data := by
  have hA : ("/enrich-reports/").data = ("/enrich-reports").data ++ ['/'] := by decide
  have hS : ("/").data = ['/'] := by decide
  simp [String.data_append, hA, hS, List.append_assoc]

/-- Claim C8: renderHTML is deterministic and side-effect free — it is a
pure function of the report document, so equal documents render to
byte-identical HTML strings. -/
theorem c8_renderHTML_deterministic (d1 d2 : ReportDoc) (h : d1 = d2) :
    renderHTML d1 = renderHTML d2 :=
  congrArg renderHTML h

theorem c8_witness : renderHTML emptyDoc = renderHTML emptyDoc :=
  c8_renderHTML_deterministic emptyDoc emptyDoc rfl

/-- Claim C10: the hello handler ignores the request entirely — any
method, headers or body receive 200, Content-Type application/json and
the fixed body. -/
theorem c10_hello_constant (r : Req) :
    helloHandler r = ⟨200, "application/json", "\x7b\"ok\":true,\"runtime\":\"node\"\x7d"⟩ :=
  rfl

/-- Claim C9: a field that is present but falsy (0, false, null, "")
renders exactly as if it were absent; no interpolation ever prints "0" or
"false" for such a value. -/
theorem c9_falsy_renders_as_absent (f : FieldId) (v : JSVal) (c : ReportDoc)
    (h : truthy v = false) :
    renderHTML (setField f v c) = renderHTML (setField f .undefined c) :=
  renderHTML_falsy_eq_undef f v c h

theorem c9_witness :
    renderHTML (setField .bizName (.num 0) emptyDoc)
      = renderHTML (setField .bizName .undefined emptyDoc) :=
  c9_falsy_renders_as_absent .bizName (.num 0) emptyDoc rfl

/-- Claim C7: a missing field renders as the empty string (the same
output as when the field holds ""), the fully empty document renders with
the "Initiated" badge fallback, and its output contains neither the
literal text "undefined" nor "null". -/
theorem c7_missing_fields_render_empty :
    (∀ (f : FieldId) (c : ReportDoc),
        renderHTML (setField f (.str "") c) = renderHTML (setField f .undefined c))
    ∧ containsSub (("Initiated").data) ((renderHTML emptyDoc).data) = true
    ∧ containsSub (("undefined").data) ((renderHTML emptyDoc).data) = false
    ∧ containsSub (("null").data) ((renderHTML emptyDoc).data) = false := by
  refine ⟨fun f c => renderHTML_falsy_eq_undef f _ c rfl, ?_, ?_, ?_⟩
  · decide
  · decide
  · decide

/-- Claim C3 counterexample: with a website URL consisting of one double
quote, the rendered HTML (whose href attribute receives escapeAttr of the
value) contains "&quot;" and contains no "%22" at all — the claimed
additional quote-to-%22 replacement never happens. -/
theorem c3_counterexample :
    containsSub (("%22").data) ((renderHTML quoteUrlDoc).data) = false
    ∧ containsSub (("&quot;").data) ((renderHTML quoteUrlDoc).data) = true := by
  constructor
  · decide
  · decide

/-- Claim C3 (amended): every interpolated value is HTML-escaped — the
escaped string contains no <, >, " or ' and every & begins one of the
entities &amp; &lt; &gt; &quot; &#39; — and the value interpolated into
the href attribute is escaped identically (escapeAttr equals escapeHtml:
double quotes become &quot; before the %22 replacement could see them). -/
theorem c3_escaping :
    (∀ v : JSVal, wellEscaped (escapeHtml v) = true)
    ∧ (∀ v : JSVal, escapeAttr v = escapeHtml v) :=
  ⟨wellEscaped_escapeHtml, escapeAttr_eq_escapeHtml⟩

/-- Claim C5: parseReportPath is total — in particular a malformed URL
(URL constructor throws) yields (null, null) via the catch, and a
well-formed URL whose pathname fails the regex yields (null, null). -/
theorem c5_parseReportPath_total (s : String) :
    (pathnameOf s = none → parseReportPath s = (none, none))
    ∧ (∀ p, pathnameOf s = some p → matchReportPathL p.data = none →
        parseReportPath s = (none, none)) := by
  constructor
  · intro h
    simp [parseReportPath, h]
  · intro p hp hm
    simp [parseReportPath, hp, hm]

theorem c5_witness :
    parseReportPath ("notaurl") = (none, none)
    ∧ parseReportPath ("https://h/a/b") = (none, none) := by
  constructor
  · exact (c5_parseReportPath_total ("notaurl")).1 (by decide)
  · exact (c5_parseReportPath_total ("https://h/a/b")).2 ("/a/b") (by decide) (by decide)

lemma str_data_inj (a b : String) (h : a.data = b.data) : a = b := by
  have h2 := congrArg String.mk h
  rwa [mk_data, mk_data] at h2

/-- Claim C1 counterexample: a well-formed URL whose path matches
`/<bucket>/<biz>/<report>/report.json` with a bucket other than
"enrich-reports" is NOT parsed — parseReportPath returns (null, null)
instead of the claimed (biz, rep). -/
theorem c1_counterexample :
    pathnameOf urlOtherBucket = some ("/other-bucket/biz/rep/report.json")
    ∧ parseReportPath urlOtherBucket = (none, none) := by
  constructor
  · decide
  · decide

/-- Claim C1 (amended): the bucket segment is hardcoded — a URL parses to
(businessId, reportId) exactly when its pathname ends with the segments
/enrich-reports/<businessId>/<reportId>/report.json (ids nonempty and
slash-free); every other URL yields (null, null), and when the pipeline
reaches the path resolution step with an unparseable URL the handler
responds 400 cannot_parse_report_path. -/
theorem c1_path_resolution :
    (∀ (u pre b r : String),
        pathnameOf u = some (pre ++ "/enrich-reports/" ++ b ++ "/" ++ r ++ "/report.json") →
        b ≠ "" → r ≠ "" → '/' ∉ b.data → '/' ∉ r.data →
        parseReportPath u = (some b, some r))
    ∧ (∀ (u b r : String), parseReportPath u = (some b, some r) →
        ∃ p pre, pathnameOf u = some p
          ∧ p = pre ++ "/enrich-reports/" ++ b ++ "/" ++ r ++ "/report.json"
          ∧ b ≠ "" ∧ r ≠ "" ∧ '/' ∉ b.data ∧ '/' ∉ r.data)
    ∧ (∀ (env : Env) (req : Req) (bd : ReqBody) (u : String),
        req.method = "POST" → req.body = some bd → bd.json_url = some u → u ≠ "" →
        (bd.format = none ∨ bd.format = some ("pdf")) →
        env.fetchExc = none → env.fetchOk = true → env.jsonExc = none →
        env.launchExc = none → env.newPageExc = none → env.setContentExc = none →
        env.pdfExc = none → env.closeExc = none →
        parseReportPath u = (none, none) →
        handler env req = (⟨400, .err ("cannot_parse_report_path")⟩, ⟨true, true, []⟩)) := by
  refine ⟨?_, ?_, ?_⟩
  · intro u pre b r hp hb hr hbs hrs
    have hbd := (str_ne_empty_iff b).mp hb
    have hrd := (str_ne_empty_iff r).mp hr
    have hmatch := matchReportPathL_decomp pre.data b.data r.data hbd hrd hbs hrs
    simp only [parseReportPath, hp]
    rw [data_of_pattern, hmatch]
  · intro u b r h
    unfold parseReportPath at h
    split at h
    · simp at h
    · rename_i p hu
      split at h
      · rename_i b0 r0 hm
        simp only [Prod.mk.injEq, Option.some.injEq] at h
        obtain ⟨hb0, hr0⟩ := h
        subst hb0
        subst hr0
        obtain ⟨preL, hdec, hbne, hrne, hbs, hrs⟩ :=
          matchReportPathL_eq_some p.data b0 r0 hm
        refine ⟨p, String.mk preL, hu, ?_, (str_ne_empty_iff b0).mpr hbne,
          (str_ne_empty_iff r0).mpr hrne, hbs, hrs⟩
        apply str_data_inj
        rw [data_of_pattern]
        exact hdec
      · simp at h
  · intro env req bd u hm hb hju hu hf h1 h2 h3 h4 h5 h6 h7 h8 hp
    rcases hf with hf | hf <;>
      simp [handler, hm, hb, hju, hu, hf, h1, h2, h3, h4, h5, h6, h7, h8, hp]

theorem c1_witness :
    parseReportPath ("https://h/pre/enrich-reports/bb/rr/report.json")
      = (some ("bb"), some ("rr"))
    ∧ handler envW reqBadPath = (⟨400, .err ("cannot_parse_report_path")⟩, ⟨true, true, []⟩) := by
  constructor
  · exact c1_path_resolution.1 ("https://h/pre/enrich-reports/bb/rr/report.json")
      ("/pre") ("bb") ("rr") (by decide) (by decide) (by decide) (by decide) (by decide)
  · exact c1_path_resolution.2.2 envW reqBadPath ⟨some ("https://h/nope"), some ("pdf")⟩
      ("https://h/nope") rfl rfl rfl (by decide) (Or.inr rfl) rfl rfl rfl rfl rfl rfl rfl rfl
      (by decide)

/-- Claim C2 (the code violates it): when `page.pdf()` throws after the
browser was launched, the handler answers 500 with the browser still open
— the trace records launched = true, closed = false, so the session is
not released on this exit path. -/
theorem c2_browser_leak :
    handler envPdfFail reqPdf = (⟨500, .err ("pdf_failed")⟩, ⟨true, false, []⟩) := by
  decide

/-- Claim C4: on a fully successful pipeline run the handler responds 200
{ok, url} where the single upload call wrote
<businessId>/<reportId>/report.pdf with content-type application/pdf,
upsert enabled and cacheControl 3600, and the returned url is the public
URL of that path. -/
theorem c4_success (env : Env) (req : Req) (bd : ReqBody) (u bizId reportId : String)
    (hm : req.method = "POST") (hb : req.body = some bd)
    (hju : bd.json_url = some u) (hu : u ≠ "")
    (hf : bd.format = none ∨ bd.format = some ("pdf"))
    (h1 : env.fetchExc = none) (h2 : env.fetchOk = true) (h3 : env.jsonExc = none)
    (h4 : env.launchExc = none) (h5 : env.newPageExc = none)
    (h6 : env.setContentExc = none) (h7 : env.pdfExc = none) (h8 : env.closeExc = none)
    (hp : parseReportPath u = (some bizId, some reportId))
    (h9 : env.uploadExc = none) (h10 : env.uploadErr = none) :
    handler env req =
      (⟨200, .okUrl (env.publicUrl (bizId ++ "/" ++ reportId ++ "/report.pdf"))⟩,
       ⟨true, true, [⟨env.bucketName, bizId ++ "/" ++ reportId ++ "/report.pdf",
         "application/pdf", true, "3600"⟩]⟩) := by
  rcases hf with hf | hf <;>
    simp [handler, hm, hb, hju, hu, hf, h1, h2, h3, h4, h5, h6, h7, h8, hp, h9, h10]

theorem c4_witness :
    handler envW reqPdf =
      (⟨200, .okUrl ("https://pub/biz/rep/report.pdf")⟩,
       ⟨true, true, [⟨"enrich-reports", "biz/rep/report.pdf",
         "application/pdf", true, "3600"⟩]⟩) := by
  rw [c4_success envW reqPdf ⟨some urlGood, some ("pdf")⟩ urlGood ("biz") ("rep")
    rfl rfl rfl (by decide) (Or.inr rfl) rfl rfl rfl rfl rfl rfl rfl rfl
    (by decide) rfl rfl]
  decide

/-- Claim C6: any present format other than "pdf" is rejected with
exactly 400 unsupported_format (given json_url is present), and an absent
format behaves exactly as format "pdf" (the default makes the check
pass). -/
theorem c6_unsupported_format :
    (∀ (env : Env) (req : Req) (bd : ReqBody) (u f : String),
        req.method = "POST" → req.body = some bd → bd.json_url = some u → u ≠ "" →
        bd.format = some f → f ≠ "pdf" →
        handler env req = (⟨400, .err ("unsupported_format")⟩, emptyTrace))
    ∧ (∀ (env : Env) (m u : String),
        handler env ⟨m, some ⟨some u, none⟩⟩ = handler env ⟨m, some ⟨some u, some ("pdf")⟩⟩) := by
  constructor
  · intro env req bd u f hm hb hju hu hfmt hf
    simp [handler, hm, hb, hju, hu, hfmt, hf]
  · intro env m u
    simp [handler]

theorem c6_witness :
    handler envW reqDocx = (⟨400, .err ("unsupported_format")⟩, emptyTrace)
    ∧ handler envW reqNoFmt
        = handler envW ⟨"POST", some ⟨some ("https://h/x"), some ("pdf")⟩⟩ := by
  constructor
  · exact c6_unsupported_format.1 envW reqDocx ⟨some ("https://h/x"), some ("docx")⟩
      ("https://h/x") ("docx") rfl rfl rfl (by decide) rfl (by decide)
  · exact c6_unsupported_format.2 envW ("POST") ("https://h/x")
